import Mathlib

/-!
# Verification of the bootc install module

A shallow embedding of `src/lib/src/install.rs` and
`src/lib/src/install/baseline.rs` (the bootc installation orchestrator).

Conventions of the embedding:
* Pure Rust functions become Lean functions on `String` / `List`.
* Fallible functions return `Except InstallError _`.  The `anyhow` error
  values at each `bail!` site are classified by the error taxonomy of the
  design (SafetyError, TopologyError, FormatError, ConfigurationError, ...),
  keeping the source's message text.
* Effectful steps (external tool invocations, mounts, the ostree deploy
  operation) are recorded as an `Event` trace returned alongside the result;
  results the code inspects (device topology, generated filesystem UUIDs,
  filesystem inspection data) are supplied by an environment record.
  External commands whose exit status is the only thing the code consumes
  are modelled as succeeding; a property of the form "X happens before Y"
  or "X never happens" over these traces is unaffected, since a failing
  command only truncates the trace.
-/

namespace Bootc

/-- Error taxonomy of the design; each constructor keeps the message text of
the corresponding `bail!` site in the source. -/
inductive InstallError where
  | SafetyError (msg : String)
  | TopologyError (msg : String)
  | FormatError (msg : String)
  | ConfigurationError (msg : String)
  | PreconditionError (msg : String)
  | OtherError (msg : String)
deriving DecidableEq, Repr

/-- Observable effectful steps of an installation run, in program order. -/
inductive Event where
  /-- the `crate::blockdev::wipefs(dev)` -/
  | wipefs (dev : String)
  /-- mounting the private devtmpfs under `/run/bootc/mounts/dev` -/
  | mountDevtmpfs
  /-- the `sgdisk` partitioning invocation -/
  | sgdisk (dev : String)
  /-- the `crate::blockdev::reread_partition_table` -/
  | rereadPartitionTable
  /-- the `crate::blockdev::udev_settle` -/
  | udevSettle
  /-- a `mkfs.*` filesystem-format invocation on `dev` -/
  | mkfs (dev : String)
  /-- the `crate::mount::mount(dev, target)` -/
  | mount (dev : String) (target : String)
  /-- the `lsm_label(path, ...)` -/
  | lsmLabel (path : String)
  /-- removing all existing entries of the target root (wipe) -/
  | wipeRootContents
  /-- the `ostree admin init-fs` : repository initialization -/
  | ostreeInitFs
  /-- the `ostree config set` -/
  | ostreeConfig (key : String)
  /-- the `ostree admin os-init` : stateroot initialization -/
  | ostreeOsInit
  /-- the `sysroot.load` -/
  | sysrootLoad
  /-- staging the source image through a temporary OCI directory -/
  | copyToOci
  /-- the `ostree_container::deploy::deploy` call (container pull + deploy),
  carrying the kernel arguments it receives -/
  | deploy (kargs : List String)
  /-- appending the boot MountSpec line to the deployment's `/etc/fstab` -/
  | writeFstab (line : String)
  /-- writing the aleph JSON sidecar -/
  | writeAleph
  /-- the `bootupd`-driven bootloader installation -/
  | installBootloader
  /-- writing and enabling the Ignition config -/
  | writeIgnition
  /-- the `chattr +i` on the physical root -/
  | chattr
  /-- the `finalize_filesystem(fs)` -/
  | finalize (fs : String)
deriving DecidableEq, Repr

/-- The deployment steps named by the design: repository initialization,
stateroot initialization, image pull (including the staging fallback) and
the deploy operation itself. -/
def Event.isDeployStep : Event → Bool
  | .ostreeInitFs | .ostreeOsInit | .copyToOci | .deploy _ => true
  | _ => false

/-! ## String helpers mirroring the Rust standard library -/

/-- Rust `char::is_ascii_whitespace`: space, tab, newline, form feed,
carriage return. -/
def isAsciiWhitespaceChar (c : Char) : Bool :=
  c = ' ' || c = '\t' || c = '\n' || c = '\x0c' || c = '\r'

/-- Accumulator-passing core of Rust `str::split_ascii_whitespace`: splits
at runs of ASCII whitespace, yielding the (necessarily non-empty) fields. -/
def splitFieldsAux : List Char → List Char → List (List Char)
  | [], acc => if acc.isEmpty then [] else [acc.reverse]
  | c :: cs, acc =>
    if isAsciiWhitespaceChar c then
      if acc.isEmpty then splitFieldsAux cs []
      else acc.reverse :: splitFieldsAux cs []
    else splitFieldsAux cs (c :: acc)

/-- Rust `str::split_ascii_whitespace`, collected to a list. -/
def splitAsciiWhitespace (s : String) : List String :=
  (splitFieldsAux s.data []).map String.mk

/-- Rust `str::split_once(sep)` on the underlying character list: splits at
the first occurrence of `sep`, or `none` when `sep` does not occur. -/
def splitOnceAux (sep : Char) : List Char → Option (List Char × List Char)
  | [] => none
  | c :: cs =>
    if c = sep then some ([], cs)
    else (splitOnceAux sep cs).map fun p => (c :: p.1, p.2)

/-- ASCII lowercasing of a single character (Rust `u8::to_ascii_lowercase`). -/
def asciiLower (c : Char) : Char :=
  if 'A' ≤ c && c ≤ 'Z' then Char.ofNat (c.toNat + 32) else c

/-- Rust `str::eq_ignore_ascii_case` on character lists. -/
def eqIgnoreAsciiCase (a b : List Char) : Bool :=
  a.map asciiLower = b.map asciiLower

/-- Holds when `s` begins, ASCII-case-insensitively, with `uuid=`. -/
def hasUuidEqPrefix (s : String) : Bool :=
  eqIgnoreAsciiCase (s.data.take 5) "uuid=".data

/-- Rust `str::strip_prefix` for strings. -/
def stripPrefixStr (pre s : String) : Option String :=
  if pre.data.isPrefixOf s.data then some (String.mk (s.data.drop pre.data.length))
  else none

/-! ## Constants (`install.rs`) -/

/-- The default stateroot name. -/
def STATEROOT_DEFAULT : String := "default"
/-- The toplevel boot directory name. -/
def BOOT : String := "boot"
/-- Directory for transient runtime state. -/
def RUN_BOOTC : String := "/run/bootc"
/-- The ext4 special directory that is ignored when checking emptiness. -/
def LOST_AND_FOUND : String := "lost+found"
/-- Kernel argument asking for a read-write rootfs. -/
def RW_KARG : String := "rw"
/-- Modelled from the spec: the EFI directory name allowed inside `boot`
(`crate::bootloader::EFI_DIR`; the bootloader module is not part of this
source tree). -/
def EFI_DIR : String := "EFI"

/-! ## MountSpec (`install.rs`, lines 187-261) -/

/-- A mount specification: a subset of a line in `/etc/fstab`. -/
structure MountSpec where
  source : String
  target : String
  fstype : String
  options : Option String
deriving DecidableEq, Repr

namespace MountSpec

/-- The default filesystem type used when parsing omits one. -/
def AUTO : String := "auto"

/-- Rust `MountSpec::new`. -/
def new (src target : String) : MountSpec :=
  { source := src, target := target, fstype := AUTO, options := none }

/-- Rust `MountSpec::new_uuid_src`: a mount keyed by `UUID=<uuid>`. -/
def new_uuid_src (uuid target : String) : MountSpec :=
  new ("UUID=" ++ uuid) target

/-- Rust `MountSpec::get_source_uuid`: split the source at the first `=`; when the
part before it equals `uuid` ASCII-case-insensitively, return the remainder. -/
def get_source_uuid (m : MountSpec) : Option String :=
  match splitOnceAux '=' m.source.data with
  | some (t, rest) =>
    if eqIgnoreAsciiCase t "uuid".data then some (String.mk rest) else none
  | none => none

/-- Rust `MountSpec::to_fstab`: the emitted fstab line. -/
def to_fstab (m : MountSpec) : String :=
  m.source ++ " " ++ m.target ++ " " ++ m.fstype ++ " " ++
    m.options.getD "defaults" ++ " 0 0"

/-- Rust `MountSpec::from_str`: split on ASCII whitespace; require a non-empty
source and a target; default the fstype to `auto`; remaining fields beyond
the fourth are ignored by the iterator chain. -/
def from_str (s : String) : Except InstallError MountSpec :=
  match splitAsciiWhitespace s with
  | [] => .error (.FormatError "Invalid empty mount specification")
  | [_] => .error (.FormatError ("Missing target in mount specification " ++ s))
  | source :: target :: rest =>
    .ok { source := source, target := target,
          fstype := rest.headD AUTO, options := (rest.drop 1).head? }

end MountSpec

/-- Rust `require_boot_uuid`: the `/boot` mount must be specified via `UUID=`. -/
def require_boot_uuid (spec : MountSpec) : Except InstallError String :=
  match spec.get_source_uuid with
  | some u => .ok u
  | none =>
    .error (.OtherError "/boot is not specified via UUID= (this is currently required)")

/-! ## Root-emptiness validation (`require_empty_rootdir`, install.rs 732-762)

Directory listings are modelled as lists of entry names in readdir order
(the source skips nothing else; non-UTF8 names, which the source rejects,
are outside the `String` model).  `bootEntries` is the listing of the
`boot` entry read via `read_dir(BOOT)`. -/

/-- The check the loop body of `require_empty_rootdir` performs on one root
entry.  Note the source inspects only the *first* entry of `boot`: the
`continue` after matching `lost+found`/EFI returns to the outer loop. -/
def checkRootEntry (bootEntries : List String) (name : String) :
    Except InstallError Unit :=
  if name = LOST_AND_FOUND then .ok ()
  else if name = BOOT then
    match bootEntries with
    | [] => .ok ()
    | e :: _ =>
      if e = LOST_AND_FOUND || e = EFI_DIR then .ok ()
      else .error (.SafetyError ("Non-empty boot directory, found " ++ e))
  else .error (.SafetyError ("Non-empty root filesystem; found " ++ name))

/-- Rust `require_empty_rootdir`: iterate the root's entries, failing at the first
one `checkRootEntry` rejects. -/
def require_empty_rootdir (rootEntries bootEntries : List String) :
    Except InstallError Unit :=
  match rootEntries with
  | [] => .ok ()
  | name :: rest =>
    match checkRootEntry bootEntries name with
    | .ok () => require_empty_rootdir rest bootEntries
    | .error e => .error e

/-! ## Backing-device resolution (install.rs 829-847)

The loop body queries `find_parent_devices(dev)` (an external topology
collaborator, modelled as a function from device names to parent lists),
breaks when there are none, fails when there are two or more, and otherwise
continues from the single parent.  The loop is modelled with explicit fuel;
the returned `Nat` instruments the number of parent lookups performed. -/

def backingDeviceLoop (parents : String → List String) :
    Nat → String → Nat → Except InstallError (String × Nat)
  | 0, _, _ => .error (.OtherError "out of fuel")
  | fuel + 1, dev, n =>
    match parents dev with
    | [] => .ok (dev, n + 1)
    | [p] => backingDeviceLoop parents fuel p (n + 1)
    | p :: next :: _ =>
      .error (.TopologyError ("Found multiple parent devices " ++ p ++ " and " ++
        next ++ "; not currently supported"))

/-- Holds when `parents` describes a linear chain `d0 -> d1 -> ... -> dk`: each device's
parent list is exactly the singleton next device, and the last device has no
parents. -/
def isLinearChain (parents : String → List String) : List String → Bool
  | [] => false
  | [d] => parents d = []
  | d :: e :: rest => parents d = [e] && isLinearChain parents (e :: rest)

/-! ## SELinux reconciliation (`reexecute_self_for_selinux_if_needed`,
install.rs 525-555)

`srcSelinux` is `SourceData.selinux` (whether the source tree carries
SELinux labels); `hostSelinux` is the result of the
`crate::lsm::selinux_enabled()` collaborator.  When both hold the source
mounts selinuxfs and re-execs itself (modelled as two events); the returned
Bool is `ret_did_override`. -/

/-- Events of the SELinux host-enabled branch. -/
inductive LsmEvent where
  | containerSetupSelinux
  | selinuxEnsureInstall
deriving DecidableEq, Repr

def reexecute_self_for_selinux_if_needed (srcSelinux hostSelinux override : Bool) :
    Except InstallError (Bool × List LsmEvent) :=
  if srcSelinux then
    if hostSelinux then
      .ok (false, [.containerSetupSelinux, .selinuxEnsureInstall])
    else if override then
      .ok (true, [])
    else
      .error (.ConfigurationError
        "Host kernel does not have SELinux support, but target enables it by default")
  else .ok (false, [])

/-! ## The baseline disk provisioner (`baseline.rs`) -/

/-- Target root filesystem type (`baseline.rs` `Filesystem`). -/
inductive Filesystem where
  | Xfs
  | Ext4
  | Btrfs
deriving DecidableEq, Repr

/-- Target block setup (`baseline.rs` `BlockSetup`). -/
inductive BlockSetup where
  | Direct
  | Tpm2Luks
deriving DecidableEq, Repr

/-- Build-target CPU architecture, selecting the `cfg!(target_arch = ...)`
branches of `install_create_rootfs`. -/
inductive Arch where
  | X8664
  | Aarch64
  | Unsupported (name : String)
deriving DecidableEq, Repr

/-- Rust `InstallBlockDeviceOpts` (`baseline.rs` 80-109). -/
structure InstallBlockDeviceOpts where
  device : String
  wipe : Bool
  block_setup : BlockSetup
  filesystem : Filesystem
  root_size : Option String
deriving DecidableEq, Repr

/-- Boot partition number. -/
def BOOTPN : Nat := 3
/-- Root partition number. -/
def ROOTPN : Nat := 4
/-- EFI system partition number (x86_64/aarch64). -/
def EFIPN : Nat := 2

/-- The prepared target returned by provisioning (`install.rs` `RootSetup`).
The open `rootfs_fd` directory handle is an OS resource and is not part of
the value model. -/
structure RootSetup where
  device : String
  rootfs : String
  boot : MountSpec
  kargs : List String
deriving DecidableEq, Repr

/-- Inputs `install_create_rootfs` reads from its collaborators: the child
partitions reported by `list_dev` on the target device, the two freshly
generated filesystem UUIDs (`uuid::Uuid::new_v4` at each `mkfs`), the
external `crate::blockdev::parse_size_mib` routine (its source is outside
this tree), and the build architecture. -/
structure CreateRootfsEnv where
  children : List String
  bootUuid : String
  rootUuid : String
  parseSize : String → Except InstallError Nat
  arch : Arch

/-- The scratch mount directory `/run/bootc/mounts`. -/
def MNTDIR : String := "/run/bootc/mounts"

/-- The tail of `install_create_rootfs` after the wipe/safety branch
(`baseline.rs` 181-341): devtmpfs mount, device re-prefixing, root-size
parsing, partitioning, partition-table reread, block-setup dispatch,
filesystem creation, mounts and labels, and the ESP. -/
def createRootfsSteps (opts : InstallBlockDeviceOpts) (env : CreateRootfsEnv) :
    Except InstallError RootSetup × List Event :=
  match stripPrefixStr "/dev/" opts.device with
  | none => (.error (.OtherError "Absolute device path in /dev/ required"),
      [Event.mountDevtmpfs])
  | some reldevice =>
    match (match opts.root_size with
           | none => (.ok none : Except InstallError (Option Nat))
           | some s => (env.parseSize s).map some) with
    | .error e => (.error e, [Event.mountDevtmpfs])
    | .ok _root_size =>
      match env.arch with
      | .Unsupported name =>
        (.error (.OtherError ("Unsupported architecture: " ++ name)),
          [Event.mountDevtmpfs])
      | _ =>
        match opts.block_setup with
        | .Tpm2Luks =>
          (.error (.OtherError "tpm2-luks is not implemented yet"),
            [Event.mountDevtmpfs, Event.sgdisk (MNTDIR ++ "/dev/" ++ reldevice),
             Event.rereadPartitionTable, Event.udevSettle])
        | .Direct =>
          let device := MNTDIR ++ "/dev/" ++ reldevice
          let bootdev := device ++ toString BOOTPN
          let rootdev := device ++ toString ROOTPN
          let rootarg := "root=UUID=" ++ env.rootUuid
          let bootsrc := "UUID=" ++ env.bootUuid
          let bootarg := "boot=" ++ bootsrc
          let boot := MountSpec.new bootsrc "/boot"
          let kargs := [rootarg, RW_KARG, bootarg]
          let rootfs := MNTDIR ++ "/rootfs"
          let bootfsDir := rootfs ++ "/boot"
          let espdev := device ++ toString EFIPN
          (.ok { device := device, rootfs := rootfs, boot := boot, kargs := kargs },
            [Event.mountDevtmpfs, Event.sgdisk device, Event.rereadPartitionTable,
             Event.udevSettle, Event.mkfs bootdev, Event.mkfs rootdev,
             Event.mount rootdev rootfs, Event.lsmLabel rootfs,
             Event.lsmLabel bootfsDir, Event.mount bootdev bootfsDir,
             Event.lsmLabel bootfsDir, Event.mkfs espdev,
             Event.mount espdev (bootfsDir ++ "/" ++ EFI_DIR)])

/-- The provisioner tail with the wipe branch's accumulated trace `t0`
prepended to its own events. -/
def createRootfsAfterWipe (opts : InstallBlockDeviceOpts) (env : CreateRootfsEnv)
    (t0 : List Event) : Except InstallError RootSetup × List Event :=
  ((createRootfsSteps opts env).1, t0 ++ (createRootfsSteps opts env).2)

/-- Rust `install_create_rootfs` (`baseline.rs` 158-341).  When wiping, every
reported child partition then the parent device get a `wipefs`; otherwise
any existing child partition is a fatal safety error. -/
def install_create_rootfs (opts : InstallBlockDeviceOpts) (env : CreateRootfsEnv) :
    Except InstallError RootSetup × List Event :=
  if opts.wipe then
    createRootfsAfterWipe opts env
      (env.children.map Event.wipefs ++ [Event.wipefs opts.device])
  else if !env.children.isEmpty then
    (.error (.SafetyError ("Detected existing partitions on " ++ opts.device ++
      "; use e.g. `wipefs` if you intend to overwrite")), [])
  else
    createRootfsAfterWipe opts env []

/-! ## Deployment orchestration (`install.rs` 280-423, 645-699) -/

/-- Modelled from the spec: the Ignition platform kernel argument
(`crate::ignition::PLATFORM_METAL_KARG`; the ignition module is not part of
this source tree). -/
def PLATFORM_METAL_KARG : String := "ignition.platform.id=metal"

/-- Modelled from the spec: the Ignition first-boot GRUB variable kernel
argument (`crate::bootloader::IGNITION_VARIABLE`; the bootloader module is
not part of this source tree). -/
def IGNITION_VARIABLE : String := "$ignition_firstboot"

/-- The kernel-argument accumulation prefix of `install_to_filesystem_impl`
(install.rs 646-657): append `selinux=0` when SELinux was overridden off,
then the Ignition arguments when an Ignition config was given. -/
def implKargs (override ignition : Bool) (kargs : List String) : List String :=
  let k1 := if override then kargs ++ ["selinux=0"] else kargs
  if ignition then k1 ++ [PLATFORM_METAL_KARG, IGNITION_VARIABLE] else k1

/-- Event trace of `initialize_ostree_root_from_self` (install.rs 280-423):
repository initialization, repo configuration, stateroot initialization,
repo labeling, sysroot load, the source-image resolution (staging through a
temporary OCI directory when skopeo lacks containers-storage support), the
deploy operation carrying the accumulated kernel arguments, and the fstab
append in the new deployment. -/
def initialize_ostree_root_from_self (skopeoCS : Bool) (rootfs : RootSetup) :
    List Event :=
  [Event.ostreeInitFs, Event.ostreeConfig "sysroot.bootloader",
   Event.ostreeConfig "sysroot.readonly", Event.ostreeOsInit,
   Event.lsmLabel (rootfs.rootfs ++ "/ostree"), Event.sysrootLoad] ++
  (if skopeoCS then [] else [Event.copyToOci]) ++
  [Event.deploy rootfs.kargs, Event.sysrootLoad,
   Event.writeFstab rootfs.boot.to_fstab]

/-- Rust `install_to_filesystem_impl` (install.rs 645-699): accumulate kernel
arguments, run the ostree deployment, write the aleph sidecar, require the
boot UUID, install the bootloader, optionally write Ignition, set the root
immutable, and finalize boot then root. -/
def install_to_filesystem_impl (override ignition skopeoCS : Bool)
    (rootfs : RootSetup) : Except InstallError Unit × List Event :=
  let rootfs1 := { rootfs with kargs := implKargs override ignition rootfs.kargs }
  let t1 := initialize_ostree_root_from_self skopeoCS rootfs1 ++ [Event.writeAleph]
  match require_boot_uuid rootfs1.boot with
  | .error e => (.error e, t1)
  | .ok _boot_uuid =>
    let t2 := t1 ++ [Event.installBootloader] ++
      (if ignition then [Event.writeIgnition] else []) ++
      [Event.chattr, Event.finalize (rootfs1.rootfs ++ "/boot"),
       Event.finalize rootfs1.rootfs]
    (.ok (), t2)

/-! ## `install_to_filesystem` (install.rs 764-877) -/

/-- Result of the `crate::mount::inspect_filesystem` collaborator: the
backing source device and the filesystem UUID of a mount point. -/
structure FsInspect where
  source : String
  uuid : Option String
deriving DecidableEq, Repr

/-- Rust `InstallTargetFilesystemOpts` (install.rs 120-146).  `root_options` is
accepted by the CLI but never read by the installation path. -/
structure InstallTargetFilesystemOpts where
  root_path : String
  root_mount_spec : Option String
  root_options : Option String
  boot_mount_spec : Option String
  wipe : Bool
deriving DecidableEq, Repr

/-- Inputs `install_to_filesystem` reads from its collaborators: directory
listings of the target root and its `boot` entry, filesystem inspection of
the root, the device identities (`st_dev`) of the root directory and of its
`boot` entry (`none` when no `boot` exists), the UUID reported for `boot`,
the device-topology parent query, and fuel bounding the backing-device
loop. -/
structure ToFilesystemEnv where
  rootEntries : List String
  bootEntries : List String
  inspectRoot : FsInspect
  rootDev : Nat
  bootDev : Option Nat
  inspectBootUuid : Option String
  parents : String → List String
  fuel : Nat

/-- Rust `install_to_filesystem` after `prepare_install` (install.rs 768-877):
wipe or validate the empty root, inspect the root filesystem, resolve the
root mount specification, require `/boot` to be a distinct filesystem by
device identity, find the boot UUID, resolve the backing device, assemble
the `RootSetup` with kargs `root=...`, `rw`, `boot=...`, and hand off to
`install_to_filesystem_impl`.  `override`/`ignition`/`skopeoCS` come from
the prepared global state. -/
def install_to_filesystem (fsopts : InstallTargetFilesystemOpts)
    (env : ToFilesystemEnv) (override ignition skopeoCS : Bool) :
    Except InstallError Unit × List Event :=
  let validated : Except InstallError Unit × List Event :=
    if fsopts.wipe then (.ok (), [Event.wipeRootContents])
    else (require_empty_rootdir env.rootEntries env.bootEntries, [])
  match validated with
  | (.error e, t0) => (.error e, t0)
  | (.ok (), t0) =>
    let rootMountSpec : Except InstallError String :=
      match fsopts.root_mount_spec with
      | some s => .ok s
      | none =>
        match env.inspectRoot.uuid with
        | some u => .ok ("UUID=" ++ u)
        | none => .error (.OtherError "No filesystem uuid found in target root")
    match rootMountSpec with
    | .error e => (.error e, t0)
    | .ok root_mount_spec =>
      match env.bootDev with
      | none =>
        (.error (.OtherError
          "No /boot directory found in root; this is is currently required"), t0)
      | some boot_dev =>
        if env.rootDev = boot_dev then
          (.error (.TopologyError
            "/boot must currently be a separate mounted filesystem"), t0)
        else
          match env.inspectBootUuid with
          | none => (.error (.OtherError "No UUID found for /boot"), t0)
          | some boot_uuid =>
            match backingDeviceLoop env.parents env.fuel env.inspectRoot.source 0 with
            | .error e => (.error e, t0)
            | .ok (backing_device, _lookups) =>
              let rootarg := "root=" ++ root_mount_spec
              let boot :=
                match fsopts.boot_mount_spec with
                | some spec => MountSpec.new spec "/boot"
                | none => MountSpec.new_uuid_src boot_uuid "/boot"
              let bootarg := "boot=" ++ boot.source
              let kargs := [rootarg, RW_KARG, bootarg]
              let rootfs : RootSetup :=
                { device := backing_device, rootfs := fsopts.root_path,
                  boot := boot, kargs := kargs }
              let (res, t1) := install_to_filesystem_impl override ignition skopeoCS rootfs
              (res, t0 ++ t1)

/-! ## Derived predicates and concrete instances used by the verification -/

/-- The root entries the validation actually lets through: `lost+found`, and
`boot` provided the *first* entry listed inside `boot` (if any) is
`lost+found` or the EFI directory. -/
def entryOk (bootEntries : List String) (name : String) : Bool :=
  name = LOST_AND_FOUND ||
    (name = BOOT &&
      match bootEntries with
      | [] => true
      | e :: _ => e = LOST_AND_FOUND || e = EFI_DIR)

/-- The error `require_empty_rootdir` raises for an offending entry `n`. -/
def rootdirError (bootEntries : List String) (n : String) : InstallError :=
  if n = BOOT then
    .SafetyError ("Non-empty boot directory, found " ++ bootEntries.headD "")
  else
    .SafetyError ("Non-empty root filesystem; found " ++ n)

/-- A kernel argument of the form `root=UUID=...`. -/
def isRootUuidKarg (s : String) : Bool := "root=UUID=".data.isPrefixOf s.data

/-- A kernel argument of the form `boot=UUID=...`. -/
def isBootUuidKarg (s : String) : Bool := "boot=UUID=".data.isPrefixOf s.data

/-- A concrete topology: `/dev/dm0` has two parents, `/dev/vda3` sits on the
two-device chain `/dev/vda3 -> /dev/vda`. -/
def parentsW : String → List String := fun d =>
  if d = "/dev/dm0" then ["/dev/sda", "/dev/sdb"]
  else if d = "/dev/vda3" then ["/dev/vda"] else []

/-- Concrete options for the safety witness: no wipe requested. -/
def optsNoWipe : InstallBlockDeviceOpts :=
  ⟨"/dev/vda", false, .Direct, .Xfs, none⟩

/-- Concrete environment for the safety witness: one existing partition. -/
def envOneChild : CreateRootfsEnv :=
  ⟨["/dev/vda1"], "BU", "RU", fun _ => .error (.OtherError "unused"), .X8664⟩

/-- Concrete options for the wipe witness. -/
def optsWipe : InstallBlockDeviceOpts :=
  ⟨"/dev/vda", true, .Direct, .Xfs, none⟩

/-- Concrete environment for the wipe witness: two existing partitions. -/
def envTwoChildren : CreateRootfsEnv :=
  ⟨["/dev/vda1", "/dev/vda2"], "BU", "RU", fun _ => .error (.OtherError "unused"),
    .X8664⟩

/-- The `RootSetup` the provisioner produces for `optsWipe`/`envTwoChildren`. -/
def rsWipe : RootSetup :=
  ⟨"/run/bootc/mounts" ++ "/dev/" ++ "vda", "/run/bootc/mounts" ++ "/rootfs",
   MountSpec.new ("UUID=" ++ "BU") "/boot",
   ["root=UUID=" ++ "RU", RW_KARG, "boot=" ++ ("UUID=" ++ "BU")]⟩

/-- Concrete environment for the same-device witness: root and boot both on
device id 7. -/
def envSameDev : ToFilesystemEnv :=
  ⟨["lost+found"], [], ⟨"/dev/vda3", some "ru"⟩, 7, some 7, some "bu",
    fun _ => [], 4⟩

/-! ## Character-level lemmas about ASCII lowercasing -/

lemma toNat_ofNat_valid (n : Nat) (h : n.isValidChar) : (Char.ofNat n).toNat = n := by
  rw [Char.ofNat, dif_pos h]
  rfl

/-- Fact: `asciiLower` maps nothing new onto `=`: only `=` itself lowers to `=`. -/
lemma asciiLower_eq_eq {c : Char} (h : asciiLower c = '=') : c = '=' := by
  unfold asciiLower at h
  split at h
  · exfalso
    rename_i hc
    simp [Bool.and_eq_true, decide_eq_true_iff] at hc
    obtain ⟨h1, h2⟩ := hc
    have hA : 65 ≤ c.toNat := h1
    have hZ : c.toNat ≤ 90 := h2
    have hv : (c.toNat + 32).isValidChar := by
      left
      show c.toNat + 32 < 55296
      omega
    have h61 := congrArg Char.toNat h
    rw [toNat_ofNat_valid _ hv] at h61
    have : ('=').toNat = 61 := by decide
    omega
  · exact h

/-- A character whose lowering is not `=` is not `=`. -/
lemma ne_eq_of_asciiLower {c : Char} (h : asciiLower c ≠ '=') : c ≠ '=' := by
  intro hc
  subst hc
  exact h (by decide)

/-- Fact: `splitOnceAux` decomposes its input at the first separator. -/
lemma splitOnceAux_eq_some {sep : Char} {l t r : List Char}
    (h : splitOnceAux sep l = some (t, r)) :
    l = t ++ sep :: r ∧ ∀ c ∈ t, c ≠ sep := by
  induction l generalizing t with
  | nil => simp [splitOnceAux] at h
  | cons c cs ih =>
    rw [splitOnceAux] at h
    split at h
    · rename_i hc
      simp only [Option.some.injEq, Prod.mk.injEq] at h
      obtain ⟨ht, hr⟩ := h
      subst ht hr hc
      simp
    · rename_i hc
      simp only [Option.map_eq_some'] at h
      obtain ⟨⟨t', r'⟩, hsp, heq⟩ := h
      simp only [Prod.mk.injEq] at heq
      obtain ⟨ht, hr⟩ := heq
      subst hr
      obtain ⟨hl, hnotin⟩ := ih hsp
      subst hl
      constructor
      · rw [← ht]
        simp
      · intro x hx
        rw [← ht] at hx
        rcases List.mem_cons.mp hx with h1 | h1
        · subst h1
          exact hc
        · exact hnotin x h1

/-! ## C9 / C10 : `get_source_uuid` -/

/-- C9: For every MountSpec whose source begins, ASCII-case-insensitively,
with `uuid=`, `get_source_uuid` returns `some` of everything after that
prefix; for every source without such a prefix it returns `none`; in
particular it returns `some "2e9f4241-229b-4202-8429-62d2302382e1"` for
source `UUID=2e9f4241-229b-4202-8429-62d2302382e1`, and `none` for
`/dev/sda2` and `LABEL=root`. -/
theorem get_source_uuid_spec (m : MountSpec) :
    (hasUuidEqPrefix m.source = true →
      m.get_source_uuid = some (String.mk (m.source.data.drop 5))) ∧
    (hasUuidEqPrefix m.source = false → m.get_source_uuid = none) ∧
    (MountSpec.new "UUID=2e9f4241-229b-4202-8429-62d2302382e1" "/").get_source_uuid
      = some "2e9f4241-229b-4202-8429-62d2302382e1" ∧
    (MountSpec.new "/dev/sda2" "/var/mnt").get_source_uuid = none ∧
    (MountSpec.new "LABEL=root" "/").get_source_uuid = none := by
  refine ⟨?_, ?_, by decide, by decide, by decide⟩
  · intro h
    unfold hasUuidEqPrefix eqIgnoreAsciiCase at h
    simp only [decide_eq_true_eq] at h
    have huml : List.map asciiLower "uuid=".data = ['u', 'u', 'i', 'd', '='] := by
      decide
    rw [huml] at h
    rcases hl : m.source.data with _ | ⟨c0, _ | ⟨c1, _ | ⟨c2, _ | ⟨c3, _ | ⟨c4, rest⟩⟩⟩⟩⟩ <;>
      rw [hl] at h <;> simp [List.take] at h
    obtain ⟨h0, h1, h2, h3, h4⟩ := h
    have hc4 : c4 = '=' := asciiLower_eq_eq h4
    have hc0 : c0 ≠ '=' := ne_eq_of_asciiLower (by rw [h0]; decide)
    have hc1 : c1 ≠ '=' := ne_eq_of_asciiLower (by rw [h1]; decide)
    have hc2 : c2 ≠ '=' := ne_eq_of_asciiLower (by rw [h2]; decide)
    have hc3 : c3 ≠ '=' := ne_eq_of_asciiLower (by rw [h3]; decide)
    unfold MountSpec.get_source_uuid
    rw [hl, hc4]
    simp only [splitOnceAux, hc0, hc1, hc2, hc3, if_neg, if_pos, if_true, if_false,
      Option.map_some']
    have heq : eqIgnoreAsciiCase [c0, c1, c2, c3] "uuid".data = true := by
      unfold eqIgnoreAsciiCase
      simp only [List.map, h0, h1, h2, h3, decide_eq_true_eq]
      decide
    simp [heq]
  · intro h
    unfold MountSpec.get_source_uuid
    cases hsp : splitOnceAux '=' m.source.data with
    | none => rfl
    | some p =>
      obtain ⟨t, r⟩ := p
      obtain ⟨hdec, -⟩ := splitOnceAux_eq_some hsp
      simp only
      split
      · rename_i ht
        exfalso
        unfold eqIgnoreAsciiCase at ht
        simp only [decide_eq_true_eq] at ht
        have hlen : t.length = 4 := by
          have := congrArg List.length ht
          simpa using this
        have ht5 : t.take 5 = t := List.take_of_length_le (by omega)
        have htake : m.source.data.take 5 = t ++ ['='] := by
          rw [hdec, List.take_append_eq_append_take, ht5, hlen]
          rfl
        unfold hasUuidEqPrefix eqIgnoreAsciiCase at h
        rw [htake] at h
        simp only [decide_eq_false_iff_not] at h
        apply h
        rw [List.map_append, ht]
        decide
      · rfl

/-! ## Lemmas about ASCII-whitespace splitting -/

/-- Structure eta for strings. -/
lemma mk_data (s : String) : String.mk s.data = s := rfl

/-- Every field produced by `splitFieldsAux` is non-empty and free of ASCII
whitespace, provided the accumulator is. -/
lemma splitFieldsAux_clean :
    ∀ (cs acc : List Char), (∀ c ∈ acc, isAsciiWhitespaceChar c = false) →
    ∀ l ∈ splitFieldsAux cs acc,
      l ≠ [] ∧ ∀ c ∈ l, isAsciiWhitespaceChar c = false := by
  intro cs
  induction cs with
  | nil =>
    intro acc hacc l hl
    rw [splitFieldsAux] at hl
    split at hl
    · simp at hl
    · rename_i hne
      simp only [List.mem_singleton] at hl
      subst hl
      refine ⟨?_, ?_⟩
      · simp only [ne_eq, List.reverse_eq_nil_iff]
        simpa [List.isEmpty_iff] using hne
      · intro c hcmem
        exact hacc c (List.mem_reverse.mp hcmem)
  | cons c cs ih =>
    intro acc hacc l hl
    rw [splitFieldsAux] at hl
    split at hl
    · split at hl
      · exact ih [] (by simp) l hl
      · rename_i hne
        rcases List.mem_cons.mp hl with h1 | h1
        · subst h1
          refine ⟨?_, fun x hx => hacc x (List.mem_reverse.mp hx)⟩
          simp only [ne_eq, List.reverse_eq_nil_iff]
          simpa [List.isEmpty_iff] using hne
        · exact ih [] (by simp) l h1
    · rename_i hw
      refine ih (c :: acc) ?_ l hl
      intro x hx
      rcases List.mem_cons.mp hx with h1 | h1
      · subst h1
        simpa using hw
      · exact hacc x h1

/-- Fact: `splitFieldsAux` consumes a whitespace-free chunk up to a space as one
field and restarts on the remainder. -/
lemma splitFieldsAux_append (rest : List Char) :
    ∀ (cs acc : List Char), (∀ c ∈ cs, isAsciiWhitespaceChar c = false) →
    (acc = [] → cs ≠ []) →
    splitFieldsAux (cs ++ ' ' :: rest) acc =
      (acc.reverse ++ cs) :: splitFieldsAux rest [] := by
  intro cs
  induction cs with
  | nil =>
    intro acc hclean hne
    simp only [List.nil_append]
    rw [splitFieldsAux]
    rw [if_pos (by decide)]
    have hacc : acc.isEmpty = false := by
      rcases acc with _ | ⟨x, xs⟩
      · exact absurd rfl (hne rfl)
      · rfl
    rw [if_neg (by simp [hacc])]
    simp
  | cons c cs ih =>
    intro acc hclean hne
    simp only [List.cons_append]
    rw [splitFieldsAux]
    have hw : isAsciiWhitespaceChar c = false := hclean c (by simp)
    rw [if_neg (by simp [hw])]
    rw [ih (c :: acc) (fun x hx => hclean x (by simp [hx])) (by simp)]
    simp

/-- Splitting the character data of an fstab line built from four clean
fields yields exactly those fields plus the two `0`s. -/
lemma splitFieldsAux_fstab (x y z w : List Char)
    (hx : x ≠ []) (hxc : ∀ c ∈ x, isAsciiWhitespaceChar c = false)
    (hy : y ≠ []) (hyc : ∀ c ∈ y, isAsciiWhitespaceChar c = false)
    (hz : z ≠ []) (hzc : ∀ c ∈ z, isAsciiWhitespaceChar c = false)
    (hw : w ≠ []) (hwc : ∀ c ∈ w, isAsciiWhitespaceChar c = false) :
    splitFieldsAux
      (x ++ ' ' :: (y ++ ' ' :: (z ++ ' ' :: (w ++ [' ', '0', ' ', '0'])))) [] =
      [x, y, z, w, ['0'], ['0']] := by
  rw [splitFieldsAux_append _ x [] hxc (fun _ => hx)]
  rw [splitFieldsAux_append _ y [] hyc (fun _ => hy)]
  rw [splitFieldsAux_append _ z [] hzc (fun _ => hz)]
  have hsplit : w ++ [' ', '0', ' ', '0'] = w ++ ' ' :: ['0', ' ', '0'] := rfl
  rw [hsplit, splitFieldsAux_append _ w [] hwc (fun _ => hw)]
  have htail : splitFieldsAux ['0', ' ', '0'] [] = [['0'], ['0']] := by decide
  rw [htail]
  simp

/-- String-level version of `splitFieldsAux_fstab`, for the line
`<s1> <s2> <s3> <s4> 0 0`. -/
lemma splitAsciiWhitespace_fstab (s1 s2 s3 s4 : String)
    (h1 : s1.data ≠ []) (h1c : ∀ c ∈ s1.data, isAsciiWhitespaceChar c = false)
    (h2 : s2.data ≠ []) (h2c : ∀ c ∈ s2.data, isAsciiWhitespaceChar c = false)
    (h3 : s3.data ≠ []) (h3c : ∀ c ∈ s3.data, isAsciiWhitespaceChar c = false)
    (h4 : s4.data ≠ []) (h4c : ∀ c ∈ s4.data, isAsciiWhitespaceChar c = false) :
    splitAsciiWhitespace (s1 ++ " " ++ s2 ++ " " ++ s3 ++ " " ++ s4 ++ " 0 0") =
      [s1, s2, s3, s4, "0", "0"] := by
  unfold splitAsciiWhitespace
  have hdata : (s1 ++ " " ++ s2 ++ " " ++ s3 ++ " " ++ s4 ++ " 0 0").data =
      s1.data ++ ' ' ::
        (s2.data ++ ' ' :: (s3.data ++ ' ' :: (s4.data ++ [' ', '0', ' ', '0']))) := by
    simp only [String.data_append]
    simp [show (" ").data = [' '] from rfl,
      show (" 0 0").data = [' ', '0', ' ', '0'] from rfl]
  rw [hdata, splitFieldsAux_fstab s1.data s2.data s3.data s4.data
    h1 h1c h2 h2c h3 h3c h4 h4c]
  simp [mk_data]

/-! ## C6 : parse acceptance -/

/-- C6 counterexample: An input with five whitespace-separated fields is
accepted by `MountSpec::from_str` (the fifth field is silently ignored),
contradicting the claim that inputs with more than 4 fields are not
accepted. -/
theorem from_str_five_fields :
    (splitAsciiWhitespace "a b c d e").length = 5 ∧
    MountSpec.from_str "a b c d e" =
      .ok { source := "a", target := "b", fstype := "c", options := some "d" } :=
  ⟨rfl, rfl⟩

/-- C6 amended: `MountSpec::from_str` succeeds exactly on texts whose
whitespace-delimited form has at least 2 fields: it fails with a
`FormatError` on an empty or whitespace-only input and on a single-field
input; fields beyond the fourth are ignored rather than rejected.  In
particular `parse("")` and `parse("/dev/vda3")` fail with `FormatError`. -/
theorem from_str_acceptance (s : String) :
    ((∃ m, MountSpec.from_str s = .ok m) ↔ 2 ≤ (splitAsciiWhitespace s).length) ∧
    (splitAsciiWhitespace s = [] →
      MountSpec.from_str s = .error (.FormatError "Invalid empty mount specification")) ∧
    (∀ f, splitAsciiWhitespace s = [f] →
      MountSpec.from_str s =
        .error (.FormatError ("Missing target in mount specification " ++ s))) ∧
    (∀ f1 f2 f3 f4 rest, splitAsciiWhitespace s = f1 :: f2 :: f3 :: f4 :: rest →
      MountSpec.from_str s =
        .ok { source := f1, target := f2, fstype := f3, options := some f4 }) ∧
    MountSpec.from_str "" = .error (.FormatError "Invalid empty mount specification") ∧
    MountSpec.from_str "/dev/vda3" =
      .error (.FormatError "Missing target in mount specification /dev/vda3") := by
  refine ⟨?_, ?_, ?_, ?_, rfl, rfl⟩
  · constructor
    · rintro ⟨m, hm⟩
      rcases hsp : splitAsciiWhitespace s with _ | ⟨f1, _ | ⟨f2, rest⟩⟩
      · have he : MountSpec.from_str s =
            .error (.FormatError "Invalid empty mount specification") := by
          unfold MountSpec.from_str
          rw [hsp]
        rw [he] at hm
        exact absurd hm (by simp)
      · have he : MountSpec.from_str s =
            .error (.FormatError ("Missing target in mount specification " ++ s)) := by
          unfold MountSpec.from_str
          rw [hsp]
        rw [he] at hm
        exact absurd hm (by simp)
      · simp only [List.length_cons]
        omega
    · intro hlen
      rcases hsp : splitAsciiWhitespace s with _ | ⟨f1, _ | ⟨f2, rest⟩⟩
      · rw [hsp] at hlen
        simp at hlen
      · rw [hsp] at hlen
        simp at hlen
      · refine ⟨⟨f1, f2, rest.headD MountSpec.AUTO, (rest.drop 1).head?⟩, ?_⟩
        unfold MountSpec.from_str
        rw [hsp]
  · intro hsp
    unfold MountSpec.from_str
    rw [hsp]
  · intro f hsp
    unfold MountSpec.from_str
    rw [hsp]
  · intro f1 f2 f3 f4 rest hsp
    unfold MountSpec.from_str
    rw [hsp]
    rfl

/-! ## C5 : parse/encode round trip -/

/-- C5: For every input whose ASCII-whitespace-separated form has 2 to 4
fields, parsing, encoding and re-parsing yields a MountSpec equal to the
first on source, target, fstype, and effective options (absent options
defaulting to `defaults`); and for every MountSpec, `to_fstab` produces
exactly the line `<source> <target> <fstype> <options|defaults> 0 0`. -/
theorem parse_encode_roundtrip (s : String)
    (hlo : 2 ≤ (splitAsciiWhitespace s).length)
    (hhi : (splitAsciiWhitespace s).length ≤ 4) :
    (∃ m m2, MountSpec.from_str s = .ok m ∧
      MountSpec.from_str m.to_fstab = .ok m2 ∧
      m2.source = m.source ∧ m2.target = m.target ∧ m2.fstype = m.fstype ∧
      m2.options.getD "defaults" = m.options.getD "defaults") ∧
    (∀ spec : MountSpec, spec.to_fstab =
      spec.source ++ " " ++ spec.target ++ " " ++ spec.fstype ++ " " ++
        spec.options.getD "defaults" ++ " 0 0") := by
  refine ⟨?_, fun _ => rfl⟩
  have hclean := splitFieldsAux_clean s.data [] (by simp)
  have hform : splitAsciiWhitespace s = (splitFieldsAux s.data []).map String.mk := rfl
  rcases hf : splitFieldsAux s.data [] with _ | ⟨la, _ | ⟨lb, _ | ⟨lc, _ | ⟨ld, rest⟩⟩⟩⟩ <;>
    rw [hform, hf] at hlo hhi <;> simp only [List.map, List.length] at hlo hhi
  · omega
  · omega
  · -- two fields
    obtain ⟨hla, hlac⟩ := hclean la (by rw [hf]; simp)
    obtain ⟨hlb, hlbc⟩ := hclean lb (by rw [hf]; simp)
    have hsp : splitAsciiWhitespace s = [String.mk la, String.mk lb] := by
      rw [hform, hf]; rfl
    have hfrom : MountSpec.from_str s =
        .ok ⟨String.mk la, String.mk lb, "auto", none⟩ := by
      unfold MountSpec.from_str
      rw [hsp]
      rfl
    refine ⟨⟨String.mk la, String.mk lb, "auto", none⟩,
      ⟨String.mk la, String.mk lb, "auto", some "defaults"⟩,
      hfrom, ?_, rfl, rfl, rfl, rfl⟩
    unfold MountSpec.from_str
    rw [show (⟨String.mk la, String.mk lb, "auto", none⟩ : MountSpec).to_fstab =
      String.mk la ++ " " ++ String.mk lb ++ " " ++ "auto" ++ " " ++ "defaults" ++ " 0 0"
      from rfl]
    rw [splitAsciiWhitespace_fstab _ _ _ _ hla hlac hlb hlbc
      (by decide) (by decide) (by decide) (by decide)]
    rfl
  · -- three fields
    obtain ⟨hla, hlac⟩ := hclean la (by rw [hf]; simp)
    obtain ⟨hlb, hlbc⟩ := hclean lb (by rw [hf]; simp)
    obtain ⟨hlc, hlcc⟩ := hclean lc (by rw [hf]; simp)
    have hsp : splitAsciiWhitespace s =
        [String.mk la, String.mk lb, String.mk lc] := by
      rw [hform, hf]; rfl
    have hfrom : MountSpec.from_str s =
        .ok ⟨String.mk la, String.mk lb, String.mk lc, none⟩ := by
      unfold MountSpec.from_str
      rw [hsp]
      rfl
    refine ⟨⟨String.mk la, String.mk lb, String.mk lc, none⟩,
      ⟨String.mk la, String.mk lb, String.mk lc, some "defaults"⟩,
      hfrom, ?_, rfl, rfl, rfl, rfl⟩
    unfold MountSpec.from_str
    rw [show (⟨String.mk la, String.mk lb, String.mk lc, none⟩ : MountSpec).to_fstab =
      String.mk la ++ " " ++ String.mk lb ++ " " ++ String.mk lc ++ " " ++ "defaults" ++ " 0 0"
      from rfl]
    rw [splitAsciiWhitespace_fstab _ _ _ _ hla hlac hlb hlbc hlc hlcc
      (by decide) (by decide)]
    rfl
  · -- four fields (`rest` must be empty by the length bound)
    have hrest : rest = [] := by
      rcases rest with _ | ⟨x, xs⟩
      · rfl
      · simp at hhi
    subst hrest
    obtain ⟨hla, hlac⟩ := hclean la (by rw [hf]; simp)
    obtain ⟨hlb, hlbc⟩ := hclean lb (by rw [hf]; simp)
    obtain ⟨hlc, hlcc⟩ := hclean lc (by rw [hf]; simp)
    obtain ⟨hld, hldc⟩ := hclean ld (by rw [hf]; simp)
    have hsp : splitAsciiWhitespace s =
        [String.mk la, String.mk lb, String.mk lc, String.mk ld] := by
      rw [hform, hf]; rfl
    have hfrom : MountSpec.from_str s =
        .ok ⟨String.mk la, String.mk lb, String.mk lc, some (String.mk ld)⟩ := by
      unfold MountSpec.from_str
      rw [hsp]
      rfl
    refine ⟨⟨String.mk la, String.mk lb, String.mk lc, some (String.mk ld)⟩,
      ⟨String.mk la, String.mk lb, String.mk lc, some (String.mk ld)⟩,
      hfrom, ?_, rfl, rfl, rfl, rfl⟩
    unfold MountSpec.from_str
    rw [show (⟨String.mk la, String.mk lb, String.mk lc, some (String.mk ld)⟩ :
        MountSpec).to_fstab =
      String.mk la ++ " " ++ String.mk lb ++ " " ++ String.mk lc ++ " " ++
        String.mk ld ++ " 0 0" from rfl]
    rw [splitAsciiWhitespace_fstab _ _ _ _ hla hlac hlb hlbc hlc hlcc hld hldc]
    rfl

/-- C5 witness: The round trip at the concrete input `/dev/vda3 /boot ext4 ro`. -/
theorem parse_encode_roundtrip_witness :
    ∃ m m2, MountSpec.from_str "/dev/vda3 /boot ext4 ro" = .ok m ∧
      MountSpec.from_str m.to_fstab = .ok m2 ∧
      m2.source = m.source ∧ m2.target = m.target ∧ m2.fstype = m.fstype ∧
      m2.options.getD "defaults" = m.options.getD "defaults" :=
  (parse_encode_roundtrip "/dev/vda3 /boot ext4 ro" (by decide) (by decide)).1

/-- C9 witness: The prefix characterization applied at the concrete
sources `UUID=abc` and `/dev/sda2`. -/
theorem get_source_uuid_spec_witness :
    (MountSpec.new "UUID=abc" "/").get_source_uuid =
      some (String.mk ("UUID=abc".data.drop 5)) ∧
    (MountSpec.new "/dev/sda2" "/x").get_source_uuid = none :=
  ⟨(get_source_uuid_spec (MountSpec.new "UUID=abc" "/")).1 (by decide),
   (get_source_uuid_spec (MountSpec.new "/dev/sda2" "/x")).2.1 (by decide)⟩

/-- C6 witness: The acceptance characterization applied at `a b` (two
fields, accepted) and at a whitespace-only input (rejected). -/
theorem from_str_acceptance_witness :
    (∃ m, MountSpec.from_str "a b" = .ok m) ∧
    MountSpec.from_str "   " =
      .error (.FormatError "Invalid empty mount specification") :=
  ⟨(from_str_acceptance "a b").1.mpr (by decide),
   (from_str_acceptance "   ").2.1 (by decide)⟩

/-! ## C2 : root-emptiness validation -/

lemma checkRootEntry_eq_ok {boots : List String} {n : String}
    (h : entryOk boots n = true) : checkRootEntry boots n = .ok () := by
  unfold entryOk at h
  unfold checkRootEntry
  rcases Bool.or_eq_true_iff.mp h with h1 | h1
  · rw [if_pos (by simpa using h1)]
  · obtain ⟨hn, hb⟩ := Bool.and_eq_true_iff.mp h1
    have hn' : n = BOOT := by simpa using hn
    have hnl : ¬(n = LOST_AND_FOUND) := by
      subst hn'
      decide
    rw [if_neg hnl, if_pos hn']
    rcases boots with _ | ⟨e, rest⟩
    · rfl
    · simp only
      rw [if_pos (by simpa using hb)]

lemma checkRootEntry_eq_err {boots : List String} {n : String}
    (h : entryOk boots n = false) :
    checkRootEntry boots n = .error (rootdirError boots n) := by
  unfold entryOk at h
  simp only [Bool.or_eq_false_iff, Bool.and_eq_false_iff] at h
  obtain ⟨hnl, hb⟩ := h
  have hnl' : ¬(n = LOST_AND_FOUND) := by simpa using hnl
  unfold checkRootEntry rootdirError
  rcases hb with hb | hb
  · have hnb : ¬(n = BOOT) := by simpa using hb
    rw [if_neg hnl', if_neg hnb, if_neg hnb]
  · by_cases hnb : n = BOOT
    · rw [if_neg hnl', if_pos hnb, if_pos hnb]
      rcases boots with _ | ⟨e, rest⟩
      · simp at hb
      · simp only
        rw [if_neg (by simpa using hb)]
        rfl
    · rw [if_neg hnl', if_neg hnb, if_neg hnb]

/-- C2 counterexample: A root whose only entry is `boot`, with `boot`
containing `lost+found` followed by `secret`, passes the validation even
though `secret` is neither `lost+found` nor the EFI directory: only the
first entry of `boot` is ever examined, contradicting the claim that any
other entry causes a `SafetyError`. -/
theorem require_empty_rootdir_ignores_second_boot_entry :
    require_empty_rootdir ["boot"] ["lost+found", "secret"] = .ok () ∧
    ("secret" : String) ≠ LOST_AND_FOUND ∧ ("secret" : String) ≠ EFI_DIR :=
  ⟨rfl, by decide, by decide⟩

/-- C2 amended: When wipe is not requested, `install_to_filesystem`
proceeds past the root-emptiness validation if and only if every entry of
the target root is `lost+found` or a `boot` directory whose *first listed*
entry, if any, is `lost+found` or the EFI directory (entries of `boot`
beyond the first are not examined); otherwise it fails with a `SafetyError`
naming the first offending entry (for a rejected `boot`, naming the first
entry inside `boot`), and `install_to_filesystem` propagates exactly that
error. -/
theorem require_empty_rootdir_spec (roots boots : List String) :
    (require_empty_rootdir roots boots =
      match roots.find? (fun n => !entryOk boots n) with
      | none => .ok ()
      | some n => .error (rootdirError boots n)) ∧
    (∀ fsopts env override ignition skopeoCS er,
      fsopts.wipe = false →
      env.rootEntries = roots → env.bootEntries = boots →
      require_empty_rootdir roots boots = .error er →
      install_to_filesystem fsopts env override ignition skopeoCS = (.error er, [])) := by
  constructor
  · induction roots with
    | nil => rfl
    | cons n rest ih =>
      rw [require_empty_rootdir, List.find?]
      by_cases h : entryOk boots n
      · rw [checkRootEntry_eq_ok h]
        rw [h]
        simpa using ih
      · rw [checkRootEntry_eq_err (Bool.not_eq_true _ ▸ Bool.of_not_eq_true h)]
        rw [Bool.of_not_eq_true h]
        rfl
  · intro fsopts env override ignition skopeoCS er hw hr hb herr
    unfold install_to_filesystem
    rw [hw, hr, hb, herr]
    rfl

/-- C2 witness: The characterization applied at a root listing
containing the disallowed entry `etc`, and threaded through
`install_to_filesystem`. -/
theorem require_empty_rootdir_spec_witness :
    require_empty_rootdir ["lost+found", "etc"] [] =
      .error (.SafetyError "Non-empty root filesystem; found etc") ∧
    install_to_filesystem
      ⟨"/target", none, none, none, false⟩
      ⟨["lost+found", "etc"], [], ⟨"/dev/vda3", some "u"⟩, 1, some 2, some "bu",
        fun _ => [], 4⟩ false false true =
      (.error (.SafetyError "Non-empty root filesystem; found etc"), []) := by
  constructor
  · exact (require_empty_rootdir_spec ["lost+found", "etc"] []).1
  · exact (require_empty_rootdir_spec ["lost+found", "etc"] []).2
      ⟨"/target", none, none, none, false⟩
      ⟨["lost+found", "etc"], [], ⟨"/dev/vda3", some "u"⟩, 1, some 2, some "bu",
        fun _ => [], 4⟩ false false true _ rfl rfl rfl
      ((require_empty_rootdir_spec ["lost+found", "etc"] []).1)

/-! ## C4 : backing-device resolution -/

/-- Generalization of the linear-chain run of the backing-device loop over
the starting value of the lookup counter. -/
lemma backingDeviceLoop_chain (parents : String → List String) :
    ∀ (ds : List String) (d : String) (fuel n : Nat),
      isLinearChain parents (d :: ds) = true →
      (d :: ds).length ≤ fuel →
      backingDeviceLoop parents fuel d n =
        .ok ((d :: ds).getLast (List.cons_ne_nil d ds), n + (d :: ds).length) := by
  intro ds
  induction ds with
  | nil =>
    intro d fuel n hchain hfuel
    have hp : parents d = [] := by
      simpa [isLinearChain] using hchain
    rcases fuel with _ | f
    · simp at hfuel
    · have step : backingDeviceLoop parents (f + 1) d n = .ok (d, n + 1) := by
        rw [backingDeviceLoop, hp]
      rw [step]
      rfl
  | cons e rest ih =>
    intro d fuel n hchain hfuel
    have hchain' := hchain
    unfold isLinearChain at hchain'
    obtain ⟨hp, hrest⟩ := Bool.and_eq_true_iff.mp hchain'
    have hp' : parents d = [e] := by simpa using hp
    rcases fuel with _ | f
    · simp at hfuel
    · have step : backingDeviceLoop parents (f + 1) d n =
          backingDeviceLoop parents f e (n + 1) := by
        rw [backingDeviceLoop, hp']
      rw [step, ih e f (n + 1) hrest (by simpa using hfuel)]
      congr 1
      refine Prod.ext ?_ ?_
      · simp [List.getLast_cons]
      · simp only [List.length_cons]
        omega

/-- C4: Backing-device resolution starting from a device whose parent
query reports two or more parents fails with a `TopologyError` naming the
first two; starting from a device heading a linear single-parent chain of N
devices, it terminates within any fuel of at least N after exactly N parent
lookups, returning the top-level (parentless) device of the chain. -/
theorem backing_device_resolution (parents : String → List String) :
    (∀ d p q r fuel n, parents d = p :: q :: r →
      backingDeviceLoop parents (fuel + 1) d n =
        .error (.TopologyError ("Found multiple parent devices " ++ p ++ " and " ++
          q ++ "; not currently supported"))) ∧
    (∀ d ds fuel, isLinearChain parents (d :: ds) = true →
      (d :: ds).length ≤ fuel →
      backingDeviceLoop parents fuel d 0 =
        .ok ((d :: ds).getLast (List.cons_ne_nil d ds), (d :: ds).length)) := by
  constructor
  · intro d p q r fuel n hp
    rw [backingDeviceLoop, hp]
  · intro d ds fuel hchain hfuel
    have := backingDeviceLoop_chain parents ds d fuel 0 hchain hfuel
    simpa using this

/-- C4 witness: The resolution theorem applied at the concrete topology:
the two-parent device fails with `TopologyError`, and the 2-chain resolves
to `/dev/vda` after 2 lookups. -/
theorem backing_device_resolution_witness :
    backingDeviceLoop parentsW 3 "/dev/dm0" 0 =
      .error (.TopologyError
        "Found multiple parent devices /dev/sda and /dev/sdb; not currently supported") ∧
    backingDeviceLoop parentsW 2 "/dev/vda3" 0 = .ok ("/dev/vda", 2) :=
  ⟨(backing_device_resolution parentsW).1 "/dev/dm0" "/dev/sda" "/dev/sdb" [] 2 0
      (by decide),
   (backing_device_resolution parentsW).2 "/dev/vda3" ["/dev/vda"] 2
      (by decide) (by decide)⟩

/-! ## C1 / C3 : the provisioner's wipe ordering, safety check, and kargs -/

lemma isRootUuidKarg_root (u : String) :
    isRootUuidKarg ("root=UUID=" ++ u) = true := by
  simp [isRootUuidKarg, String.data_append, List.isPrefixOf]

lemma isRootUuidKarg_boot (u : String) :
    isRootUuidKarg ("boot=" ++ ("UUID=" ++ u)) = false := by
  simp [isRootUuidKarg, String.data_append, List.isPrefixOf]

lemma isBootUuidKarg_boot (u : String) :
    isBootUuidKarg ("boot=" ++ ("UUID=" ++ u)) = true := by
  simp [isBootUuidKarg, String.data_append, List.isPrefixOf]

lemma isBootUuidKarg_root (u : String) :
    isBootUuidKarg ("root=UUID=" ++ u) = false := by
  simp [isBootUuidKarg, String.data_append, List.isPrefixOf]

lemma isRootUuidKarg_rw : isRootUuidKarg RW_KARG = false := by decide

lemma isBootUuidKarg_rw : isBootUuidKarg RW_KARG = false := by decide

lemma root_ne_rw (u : String) : (("root=UUID=" ++ u) = RW_KARG) = False := by
  simp [RW_KARG, String.ext_iff, String.data_append]

lemma boot_ne_rw (u : String) : (("boot=" ++ ("UUID=" ++ u)) = RW_KARG) = False := by
  simp [RW_KARG, String.ext_iff, String.data_append]

/-- The tail of the provisioner only ever appends to the incoming trace. -/
lemma createRootfsAfterWipe_trace (opts : InstallBlockDeviceOpts)
    (env : CreateRootfsEnv) (t0 : List Event) :
    t0 <+: (createRootfsAfterWipe opts env t0).2 :=
  List.prefix_append t0 _

/-- C3: For every block device reporting at least one existing child
partition, if wipe is not requested then `install_create_rootfs` fails with
a `SafetyError` and its event trace is empty: in particular no `sgdisk`
partitioning invocation and no `mkfs` filesystem-format invocation
occurs. -/
theorem provisioner_safety (opts : InstallBlockDeviceOpts) (env : CreateRootfsEnv)
    (hw : opts.wipe = false) (hc : env.children ≠ []) :
    (install_create_rootfs opts env).1 =
      .error (.SafetyError ("Detected existing partitions on " ++ opts.device ++
        "; use e.g. `wipefs` if you intend to overwrite")) ∧
    (install_create_rootfs opts env).2 = [] ∧
    ∀ d, Event.sgdisk d ∉ (install_create_rootfs opts env).2 ∧
      Event.mkfs d ∉ (install_create_rootfs opts env).2 := by
  have hne : env.children.isEmpty = false := by
    cases hx : env.children with
    | nil => exact absurd hx hc
    | cons a l => rfl
  have heq : install_create_rootfs opts env =
      (.error (.SafetyError ("Detected existing partitions on " ++ opts.device ++
        "; use e.g. `wipefs` if you intend to overwrite")), []) := by
    unfold install_create_rootfs
    rw [hw, hne]
    rfl
  rw [heq]
  exact ⟨rfl, rfl, fun d => ⟨by simp, by simp⟩⟩

/-- C3 witness: The safety theorem applied at a device with one
existing child partition and `wipe=false`. -/
theorem provisioner_safety_witness :
    (install_create_rootfs optsNoWipe envOneChild).1 =
      .error (.SafetyError ("Detected existing partitions on " ++ "/dev/vda" ++
        "; use e.g. `wipefs` if you intend to overwrite")) ∧
    (install_create_rootfs optsNoWipe envOneChild).2 = [] :=
  have h := provisioner_safety optsNoWipe envOneChild rfl (by simp [envOneChild])
  ⟨h.1, h.2.1⟩

/-- C1: For every block-device options value with `wipe=true`,
`install_create_rootfs` wipes the filesystem signatures of every reported
child partition and then of the parent device — this wipe sequence is a
prefix of the event trace, and contains no partitioning (`sgdisk`) command,
so all wipes happen before any partitioning command is issued — and the
kargs list of every successfully returned `RootSetup` is exactly
`[root=UUID=<root-uuid>, rw, boot=UUID=<boot-uuid>]`: filtering it for
`root=UUID=` entries, for `rw` entries, and for `boot=UUID=` entries each
yields exactly one element, in that order. -/
theorem provisioner_wipe_order_and_kargs (opts : InstallBlockDeviceOpts)
    (env : CreateRootfsEnv) (hw : opts.wipe = true) :
    ((env.children.map Event.wipefs ++ [Event.wipefs opts.device]) <+:
      (install_create_rootfs opts env).2) ∧
    (∀ d, Event.sgdisk d ∉
      env.children.map Event.wipefs ++ [Event.wipefs opts.device]) ∧
    (∀ rs, (install_create_rootfs opts env).1 = .ok rs →
      rs.kargs = ["root=UUID=" ++ env.rootUuid, RW_KARG,
        "boot=" ++ ("UUID=" ++ env.bootUuid)] ∧
      rs.kargs.filter isRootUuidKarg = ["root=UUID=" ++ env.rootUuid] ∧
      rs.kargs.filter (fun s => decide (s = RW_KARG)) = [RW_KARG] ∧
      rs.kargs.filter isBootUuidKarg = ["boot=" ++ ("UUID=" ++ env.bootUuid)]) := by
  have hrun : install_create_rootfs opts env =
      createRootfsAfterWipe opts env
        (env.children.map Event.wipefs ++ [Event.wipefs opts.device]) := by
    unfold install_create_rootfs
    rw [hw]
    rfl
  refine ⟨?_, ?_, ?_⟩
  · rw [hrun]
    exact createRootfsAfterWipe_trace opts env _
  · intro d
    simp
  · intro rs hrs
    rw [hrun] at hrs
    have hrs' : (createRootfsSteps opts env).1 = .ok rs := hrs
    unfold createRootfsSteps at hrs'
    split at hrs'
    · simp at hrs'
    · split at hrs'
      · simp at hrs'
      · split at hrs'
        · simp at hrs'
        all_goals
          split at hrs'
          · simp at hrs'
          · simp only [Except.ok.injEq] at hrs'
            subst hrs'
            refine ⟨rfl, ?_, ?_, ?_⟩ <;>
              simp [List.filter, isRootUuidKarg_root, isRootUuidKarg_boot,
                isBootUuidKarg_root, isBootUuidKarg_boot, isRootUuidKarg_rw,
                isBootUuidKarg_rw, root_ne_rw, boot_ne_rw]

/-- C1 witness: The wipe/kargs theorem applied at a concrete wiped
two-partition device. -/
theorem provisioner_wipe_order_and_kargs_witness :
    ((envTwoChildren.children.map Event.wipefs ++ [Event.wipefs optsWipe.device]) <+:
      (install_create_rootfs optsWipe envTwoChildren).2) ∧
    (install_create_rootfs optsWipe envTwoChildren).1 = .ok rsWipe ∧
    rsWipe.kargs.filter isRootUuidKarg = ["root=UUID=" ++ "RU"] :=
  have h := provisioner_wipe_order_and_kargs optsWipe envTwoChildren rfl
  ⟨h.1, rfl, ((h.2.2 rsWipe rfl).2).1⟩

/-! ## C7 : SELinux reconciliation -/

/-- C7: When the source tree carries SELinux labels, the host lacks
SELinux support, and no disable override is given, preparation fails with a
`ConfigurationError`; with the override it succeeds recording the override
and taking no re-exec action; when the source tree carries no labels,
nothing is done and no override is recorded; and a recorded override makes
the kernel arguments handed to the deploy operation contain exactly one
`selinux=0`, appended before the deployment runs. -/
theorem selinux_reconciliation :
    (reexecute_self_for_selinux_if_needed true false false =
      .error (.ConfigurationError
        "Host kernel does not have SELinux support, but target enables it by default")) ∧
    (reexecute_self_for_selinux_if_needed true false true = .ok (true, [])) ∧
    (∀ hostSelinux override,
      reexecute_self_for_selinux_if_needed false hostSelinux override =
        .ok (false, [])) ∧
    (∀ kargs, "selinux=0" ∉ kargs →
      (implKargs true false kargs).count "selinux=0" = 1) ∧
    (∀ rootfs skopeoCS,
      Event.deploy (implKargs true false rootfs.kargs) ∈
        (install_to_filesystem_impl true false skopeoCS rootfs).2) := by
  refine ⟨rfl, rfl, fun h o => rfl, ?_, ?_⟩
  · intro kargs hmem
    unfold implKargs
    simp [List.count_append, List.count_eq_zero.mpr hmem]
  · intro rootfs skopeoCS
    unfold install_to_filesystem_impl
    simp only [Bool.false_eq_true, if_false]
    split <;> simp [initialize_ostree_root_from_self]

/-- C7 witness: The karg-count part applied at the standard karg triple
(which contains no `selinux=0`). -/
theorem selinux_reconciliation_witness :
    (implKargs true false ["root=UUID=a", RW_KARG, "boot=UUID=b"]).count
      "selinux=0" = 1 :=
  selinux_reconciliation.2.2.2.1 ["root=UUID=a", RW_KARG, "boot=UUID=b"]
    (by decide)

/-! ## C8 : root and boot on the same device identity -/

/-- C8: For every install-to-filesystem run that reaches the
separate-`/boot` verification (its root-emptiness validation passes and a
root mount specification is available) in which the root path and its
`boot` entry report the same filesystem device identity, the run fails with
a `TopologyError` and no deployment step — repository initialization,
stateroot initialization, image pull/staging, or deploy — ever appears in
its event trace. -/
theorem root_boot_same_device (fsopts : InstallTargetFilesystemOpts)
    (env : ToFilesystemEnv) (override ignition skopeoCS : Bool)
    (hpass : fsopts.wipe = true ∨
      require_empty_rootdir env.rootEntries env.bootEntries = .ok ())
    (hspec : fsopts.root_mount_spec ≠ none ∨ env.inspectRoot.uuid ≠ none)
    (hdev : env.bootDev = some env.rootDev) :
    (install_to_filesystem fsopts env override ignition skopeoCS).1 =
      .error (.TopologyError "/boot must currently be a separate mounted filesystem") ∧
    ∀ e ∈ (install_to_filesystem fsopts env override ignition skopeoCS).2,
      e.isDeployStep = false := by
  unfold install_to_filesystem
  rw [hdev]
  rcases hpass with hw | hok
  · rw [hw]
    rcases hms : fsopts.root_mount_spec with _ | s
    · rcases hu : env.inspectRoot.uuid with _ | u
      · rcases hspec with h | h
        · exact absurd hms h
        · exact absurd hu h
      · constructor
        · simp
        · intro e he
          simp at he
          subst he
          rfl
    · constructor
      · simp
      · intro e he
        simp at he
        subst he
        rfl
  · rcases hwipe : fsopts.wipe with _ | _
    · rw [hok]
      rcases hms : fsopts.root_mount_spec with _ | s
      · rcases hu : env.inspectRoot.uuid with _ | u
        · rcases hspec with h | h
          · exact absurd hms h
          · exact absurd hu h
        · constructor
          · simp
          · intro e he
            simp at he
      · constructor
        · simp
        · intro e he
          simp at he
    · rcases hms : fsopts.root_mount_spec with _ | s
      · rcases hu : env.inspectRoot.uuid with _ | u
        · rcases hspec with h | h
          · exact absurd hms h
          · exact absurd hu h
        · constructor
          · simp
          · intro e he
            simp at he
            subst he
            rfl
      · constructor
        · simp
        · intro e he
          simp at he
          subst he
          rfl

/-- C8 witness: The same-device theorem applied at a concrete
environment whose root and boot report device id 7. -/
theorem root_boot_same_device_witness :
    (install_to_filesystem ⟨"/target", none, none, none, false⟩ envSameDev
        false false true).1 =
      .error (.TopologyError "/boot must currently be a separate mounted filesystem") :=
  (root_boot_same_device ⟨"/target", none, none, none, false⟩ envSameDev
    false false true (Or.inr rfl) (Or.inr (by simp [envSameDev])) rfl).1

/-- C10: `get_source_uuid` of the MountSpec whose source is exactly
`UUID=` is `some ""`, so `require_boot_uuid` accepts a `/boot` MountSpec
carrying an empty UUID; and for every uuid string `u` and target `t`,
`get_source_uuid (new_uuid_src u t) = some u`, even when `u` contains `=`
characters. -/
theorem get_source_uuid_new_uuid_src (u t : String) :
    (MountSpec.new_uuid_src u t).get_source_uuid = some u ∧
    (MountSpec.new "UUID=" "/boot").get_source_uuid = some "" ∧
    require_boot_uuid (MountSpec.new "UUID=" "/boot") = .ok "" := by
  refine ⟨?_, by decide, by rfl⟩
  unfold MountSpec.new_uuid_src MountSpec.get_source_uuid MountSpec.new
  simp only
  have hdata : ("UUID=" ++ u).data = 'U' :: 'U' :: 'I' :: 'D' :: '=' :: u.data := by
    simp [String.data_append]
  rw [hdata]
  simp +decide [splitOnceAux, eqIgnoreAsciiCase]

end Bootc
